import Mathlib

/-!
Verification of the UART register-terminal protocol client.

The development embeds the two Python modules of the repository:

* `terminal.py`   — command-line client (`read_register`, `write_register`,
  line-based REPL);
* `terminal-gui.py` — Qt client (`send_command`, `read_scb_register`,
  `read_custom_register`, `write_custom_register`, `disconnect_serial`,
  `closeEvent`, the `SCB_REGISTERS` table).

Pure helpers from the Python standard library that the code relies on are
modelled explicitly: `"{:X}"` formatting (`natToHexUpper` / `formatX`),
`int(text, 16)` (`pyIntHex`), `str.strip()` (`pyStrip`) and
`bytes.decode` (`utf8DecodeIgnore` / `utf8DecodeStrict`).  Serial I/O is
modelled by an explicit transport behaviour and an event trace recording
the order of writes, sleeps and reads.
-/

namespace Uart

/-! ## Uppercase hexadecimal formatting: Python `"{:X}"` -/

/-- One uppercase hexadecimal digit: `0`-`9` then `A`-`F`. -/
def hexDigitChar (d : Nat) : Char :=
  if d < 10 then Char.ofNat (48 + d) else Char.ofNat (55 + d)

/-- Digits of `n` in base 16, most significant first, uppercase.
The first argument is fuel; any fuel above `n` yields the digits of `n`. -/
def hexDigitsAux : Nat → Nat → List Char
  | 0, _ => []
  | fuel + 1, n =>
    if n < 16 then [hexDigitChar n]
    else hexDigitsAux fuel (n / 16) ++ [hexDigitChar (n % 16)]

/-- Python `"{:X}".format(n)` for a non-negative integer: minimal uppercase
hexadecimal representation, `"0"` for zero. -/
def natToHexUpper (n : Nat) : String :=
  String.mk (hexDigitsAux (n + 1) n)

/-- Numeric value of a hexadecimal digit character (any of `0-9a-fA-F`). -/
def hexCharVal (c : Char) : Nat :=
  if 97 ≤ c.toNat then c.toNat - 87
  else if 65 ≤ c.toNat then c.toNat - 55
  else c.toNat - 48

/-- Uppercase hexadecimal digit (`0`-`9` or `A`-`F`). -/
def isUpperHexDigit (c : Char) : Bool :=
  (48 ≤ c.toNat && c.toNat ≤ 57) || (65 ≤ c.toNat && c.toNat ≤ 70)

/-- Base-16 value of a digit list, most significant first. -/
def hexNatOfDigits (l : List Char) : Nat :=
  l.foldl (fun a c => 16 * a + hexCharVal c) 0

/-- The specification description of a rendered number: a non-empty string of
uppercase hexadecimal digits, no leading zero, denoting `v`. -/
def minUpperHex (l : List Char) (v : Nat) : Prop :=
  l ≠ [] ∧ (∀ c ∈ l, isUpperHexDigit c = true) ∧ hexNatOfDigits l = v ∧
    (l.head? = some '0' → l = ['0'])

/-- Python `"{:X}"` on an arbitrary `int`: a minus sign followed by the
magnitude for negative numbers, the plain magnitude otherwise. -/
def formatX (i : Int) : String :=
  if i < 0 then "-" ++ natToHexUpper i.natAbs else natToHexUpper i.natAbs

/-- The read command wire string, `f"read 0x{address:X}\r\n"`
(`terminal.py` `read_register`, `terminal-gui.py` `read_scb_register` and
`read_custom_register` build exactly this string). -/
def render_read (address : Int) : String :=
  "read 0x" ++ formatX address ++ "\r\n"

/-- The write command wire string, `f"write 0x{address:X} 0x{value:X}\r\n"`
(`terminal.py` `write_register`, `terminal-gui.py` `write_custom_register`). -/
def render_write (address value : Int) : String :=
  "write 0x" ++ formatX address ++ " 0x" ++ formatX value ++ "\r\n"

/-! ## Python `str.strip()` and `int(text, 16)` -/

/-- ASCII whitespace stripped by Python `str.strip()` and by `int()`. -/
def isPySpace (c : Char) : Bool :=
  c = ' ' || c = '\t' || c = '\n' || c = '\r' || c = '\x0b' || c = '\x0c'

/-- `str.strip()` on a character list: drop whitespace from both ends. -/
def pyStripChars (l : List Char) : List Char :=
  (((l.dropWhile isPySpace).reverse.dropWhile isPySpace)).reverse

/-- Python `text.strip()`. -/
def pyStrip (s : String) : String :=
  String.mk (pyStripChars s.data)

/-- Case-insensitive hexadecimal digit (`0-9`, `a-f`, `A-F`),
as accepted by `int(text, 16)`. -/
def isHexDigitChar (c : Char) : Bool :=
  (48 ≤ c.toNat && c.toNat ≤ 57) || (97 ≤ c.toNat && c.toNat ≤ 102) ||
    (65 ≤ c.toNat && c.toNat ≤ 70)

/-- Optional sign accepted by `int()`: returns (negative?, remainder). -/
def parseSign : List Char → Bool × List Char
  | c :: rest =>
    if c = '-' then (true, rest)
    else if c = '+' then (false, rest)
    else (false, c :: rest)
  | [] => (false, [])

/-- Optional `0x` / `0X` marker accepted by `int(text, 16)`:
returns (marker present?, remainder). -/
def parseHexPre : List Char → Bool × List Char
  | c0 :: c1 :: rest =>
    if c0 = '0' && (c1 = 'x' || c1 = 'X') then (true, rest)
    else (false, c0 :: c1 :: rest)
  | l => (false, l)

/-- Digit tail of `int(text, 16)`: hexadecimal digits where a single
underscore may separate two digits (CPython underscore rule). -/
def hexDigitsVal : List Char → Nat → Option Nat
  | [], acc => some acc
  | c :: rest, acc =>
    if c = '_' then
      match rest with
      | [] => none
      | d :: rest2 =>
        if isHexDigitChar d then hexDigitsVal rest2 (16 * acc + hexCharVal d)
        else none
    else if isHexDigitChar c then hexDigitsVal rest (16 * acc + hexCharVal c)
    else none

/-- Digit part of `int(text, 16)` after sign and marker: must contain at
least one digit; directly after a `0x` marker CPython also permits one
leading underscore. -/
def parseHexDigits (afterPre : Bool) : List Char → Option Nat
  | [] => none
  | c :: rest =>
    if isHexDigitChar c then hexDigitsVal rest (hexCharVal c)
    else if afterPre && c = '_' then
      match rest with
      | [] => none
      | d :: rest2 =>
        if isHexDigitChar d then hexDigitsVal rest2 (hexCharVal d) else none
    else none

/-- Python `int(text, 16)`: strips surrounding whitespace, accepts an
optional sign, an optional `0x`/`0X` marker and underscore-separated
case-insensitive hexadecimal digits; arbitrary precision, `none` models
`ValueError`. -/
def pyIntHex (s : String) : Option Int :=
  let l := pyStripChars s.data
  let sgn := parseSign l
  let pre := parseHexPre sgn.2
  match parseHexDigits pre.1 pre.2 with
  | none => none
  | some n => some (if sgn.1 then -(n : Int) else (n : Int))

/-! ## The specification hexadecimal grammar and `parse_hex` -/

/-- Does the list start with the `0x` / `0X` marker? -/
def specHasPre : List Char → Bool
  | c0 :: c1 :: _ => c0 = '0' && (c1 = 'x' || c1 = 'X')
  | _ => false

/-- The digit part: the list with the optional marker removed. -/
def specHexBody (l : List Char) : List Char :=
  if specHasPre l then l.drop 2 else l

/-- The specification hexadecimal grammar: optional `0x`/`0X` marker followed by a
non-empty run of case-insensitive hexadecimal digits, nothing else. -/
def specValidHex (l : List Char) : Bool :=
  !(specHexBody l).isEmpty && (specHexBody l).all isHexDigitChar

/-- Modelled from the spec: `parse_hex(text) -> uint32 | Fails(InvalidFormat)`
(§4.2) — the repository has no such function; user text is fed straight to
`int(text, 16)`.  Accepts the spec grammar only and enforces the 32-bit
bound. -/
def spec_parse_hex (s : String) : Option Nat :=
  if specValidHex s.data then
    let v := hexNatOfDigits (specHexBody s.data)
    if v < 2 ^ 32 then some v else none
  else none

/-- Characters that can appear in a string accepted by `int(text, 16)`:
hexadecimal digits, whitespace, underscore, a sign, or a marker letter. -/
def allowedPyHexChar (c : Char) : Bool :=
  isHexDigitChar c || isPySpace c || c = '_' || c = '+' || c = '-' ||
    c = 'x' || c = 'X'

/-- Boolean form of `minUpperHex`: non-empty uppercase hex, no leading zero. -/
def isMinUpperHexStr (l : List Char) : Bool :=
  !l.isEmpty && l.all isUpperHexDigit && (l == ['0'] || l.head? != some '0')

/-- Does a string match the documented read wire format
`"read 0x{ADDR}\x7br\x7bn"` with `ADDR` minimal uppercase hexadecimal?
(Here written with escaped braces; the terminator is CR LF.) -/
def isReadWire (s : String) : Bool :=
  (s.data.take 7 == ("read 0x").data) &&
    ((s.data.drop 7).drop ((s.data.drop 7).length - 2) ==
      [Char.ofNat 13, Char.ofNat 10]) &&
    isMinUpperHexStr ((s.data.drop 7).take ((s.data.drop 7).length - 2))

/-! ## Python `bytes.decode` (UTF-8) -/

/-- UTF-8 continuation byte. -/
def isCont (b : Nat) : Bool := 128 ≤ b && b ≤ 191

/-- Admissible second byte of a three-byte sequence headed by `b`
(excludes overlong encodings and surrogates). -/
def isCont2 (b b2 : Nat) : Bool :=
  if b = 224 then 160 ≤ b2 && b2 ≤ 191
  else if b = 237 then 128 ≤ b2 && b2 ≤ 159
  else isCont b2

/-- Admissible second byte of a four-byte sequence headed by `b`. -/
def isCont3 (b b2 : Nat) : Bool :=
  if b = 240 then 144 ≤ b2 && b2 ≤ 191
  else if b = 244 then 128 ≤ b2 && b2 ≤ 143
  else isCont b2

/-- UTF-8 decoding with invalid bytes dropped, as
`bytes.decode(errors=ignore)` does.  Fuel-driven; fuel at least the list
length suffices.  (CPython skips the maximal invalid subpart; on every byte
sequence reasoned about below — ASCII runs, the empty sequence and the
single byte 255 — that policy and the one-byte skip used here agree.) -/
def utf8DecIgnoreAux : Nat → List Nat → List Char
  | 0, _ => []
  | _ + 1, [] => []
  | fuel + 1, b :: rest =>
    if b < 128 then Char.ofNat b :: utf8DecIgnoreAux fuel rest
    else if 194 ≤ b && b ≤ 223 then
      match rest with
      | [] => []
      | b2 :: rest2 =>
        if isCont b2 then
          Char.ofNat ((b - 192) * 64 + (b2 - 128)) :: utf8DecIgnoreAux fuel rest2
        else utf8DecIgnoreAux fuel rest
    else if 224 ≤ b && b ≤ 239 then
      match rest with
      | b2 :: b3 :: rest3 =>
        if isCont2 b b2 && isCont b3 then
          Char.ofNat ((b - 224) * 4096 + (b2 - 128) * 64 + (b3 - 128)) ::
            utf8DecIgnoreAux fuel rest3
        else utf8DecIgnoreAux fuel rest
      | _ => []
    else if 240 ≤ b && b ≤ 244 then
      match rest with
      | b2 :: b3 :: b4 :: rest4 =>
        if isCont3 b b2 && isCont b3 && isCont b4 then
          Char.ofNat ((b - 240) * 262144 + (b2 - 128) * 4096 +
            (b3 - 128) * 64 + (b4 - 128)) :: utf8DecIgnoreAux fuel rest4
        else utf8DecIgnoreAux fuel rest
      | _ => []
    else utf8DecIgnoreAux fuel rest

/-- `bytes.decode(errors=ignore)` — used by `terminal-gui.py`
`send_command`. -/
def utf8DecodeIgnore (bs : List Nat) : String :=
  String.mk (utf8DecIgnoreAux bs.length bs)

/-- Strict UTF-8 decoding: `none` models `UnicodeDecodeError`.  Used by
`terminal.py`, whose `read_register` calls `.decode()` with no error
handler. -/
def utf8DecStrictAux : Nat → List Nat → Option (List Char)
  | 0, _ => some []
  | _ + 1, [] => some []
  | fuel + 1, b :: rest =>
    if b < 128 then (utf8DecStrictAux fuel rest).map (Char.ofNat b :: ·)
    else if 194 ≤ b && b ≤ 223 then
      match rest with
      | [] => none
      | b2 :: rest2 =>
        if isCont b2 then
          (utf8DecStrictAux fuel rest2).map
            (Char.ofNat ((b - 192) * 64 + (b2 - 128)) :: ·)
        else none
    else if 224 ≤ b && b ≤ 239 then
      match rest with
      | b2 :: b3 :: rest3 =>
        if isCont2 b b2 && isCont b3 then
          (utf8DecStrictAux fuel rest3).map
            (Char.ofNat ((b - 224) * 4096 + (b2 - 128) * 64 + (b3 - 128)) :: ·)
        else none
      | _ => none
    else if 240 ≤ b && b ≤ 244 then
      match rest with
      | b2 :: b3 :: b4 :: rest4 =>
        if isCont3 b b2 && isCont b3 && isCont b4 then
          (utf8DecStrictAux fuel rest4).map
            (Char.ofNat ((b - 240) * 262144 + (b2 - 128) * 4096 +
              (b3 - 128) * 64 + (b4 - 128)) :: ·)
        else none
      | _ => none
    else none

/-- `bytes.decode()` with the default strict error handler. -/
def utf8DecodeStrict (bs : List Nat) : Option String :=
  (utf8DecStrictAux bs.length bs).map String.mk

/-- Modelled from the spec: decoding with "invalid byte sequences replaced"
(§4.1 `read_line`), i.e. `errors=replace` — each rejected byte becomes
U+FFFD.  The repository GUI uses `errors=ignore` instead; this
definition exists to compare the two. -/
def utf8DecReplaceAux : Nat → List Nat → List Char
  | 0, _ => []
  | _ + 1, [] => []
  | fuel + 1, b :: rest =>
    if b < 128 then Char.ofNat b :: utf8DecReplaceAux fuel rest
    else if 194 ≤ b && b ≤ 223 then
      match rest with
      | [] => ['\uFFFD']
      | b2 :: rest2 =>
        if isCont b2 then
          Char.ofNat ((b - 192) * 64 + (b2 - 128)) :: utf8DecReplaceAux fuel rest2
        else '\uFFFD' :: utf8DecReplaceAux fuel rest
    else if 224 ≤ b && b ≤ 239 then
      match rest with
      | b2 :: b3 :: rest3 =>
        if isCont2 b b2 && isCont b3 then
          Char.ofNat ((b - 224) * 4096 + (b2 - 128) * 64 + (b3 - 128)) ::
            utf8DecReplaceAux fuel rest3
        else '\uFFFD' :: utf8DecReplaceAux fuel rest
      | _ => ['\uFFFD']
    else if 240 ≤ b && b ≤ 244 then
      match rest with
      | b2 :: b3 :: b4 :: rest4 =>
        if isCont3 b b2 && isCont b3 && isCont b4 then
          Char.ofNat ((b - 240) * 262144 + (b2 - 128) * 4096 +
            (b3 - 128) * 64 + (b4 - 128)) :: utf8DecReplaceAux fuel rest4
        else '\uFFFD' :: utf8DecReplaceAux fuel rest
      | _ => ['\uFFFD']
    else '\uFFFD' :: utf8DecReplaceAux fuel rest

/-- Decoding with `errors=replace` (the behaviour the spec asks for). -/
def utf8DecodeReplace (bs : List Nat) : String :=
  String.mk (utf8DecReplaceAux bs.length bs)

/-! ## The GUI client (`terminal-gui.py`, class `STM32Terminal`) -/

/-- A `serial.Serial` object as the client observes it: only its
open/closed flag matters to the embedded code paths. -/
structure SerialHandle where
  is_open : Bool
deriving DecidableEq

/-- The mutable state of `STM32Terminal` that the protocol paths touch:
`self.ser` (absent before the first connect), the log pane, the error
popups raised by `show_error`, and the button-enable flag driven by
`set_connected_state`. -/
structure GuiState where
  ser : Option SerialHandle
  log : List String
  popups : List String
  uiConnected : Bool
deriving DecidableEq

/-- The guard `self.ser and self.ser.is_open`. -/
def serOpen (st : GuiState) : Bool :=
  match st.ser with
  | some h => h.is_open
  | none => false

/-- `show_error`: raise a critical popup and append the message to the log. -/
def show_error (st : GuiState) (msg : String) : GuiState :=
  { st with popups := st.popups ++ [msg], log := st.log ++ [msg] }

/-- What the serial device/driver does during one command exchange:
either `readline` returns some bytes (possibly none, after the timeout),
or the write or the read raises a transport exception. -/
inductive TransportBehavior where
  | ok (bytes : List Nat)
  | failWrite (msg : String)
  | failRead (msg : String)
deriving DecidableEq

/-- Observable transport-level steps, in program order. -/
inductive Event where
  | write (s : String)
  | sleep (ms : Nat)
  | readLine
deriving DecidableEq

/-- Result of `send_command`: the returned response string, the updated
widget state, and the trace of transport-level steps performed. -/
structure CmdResult where
  response : String
  state : GuiState
  events : List Event
deriving DecidableEq

/-- `send_command(self, cmd)`: guard on an open port, then
`self.ser.write(cmd.encode())`, `time.sleep(0.05)`,
`self.ser.readline().decode(errors=ignore).strip()`, log the exchange;
any exception is caught, shown via `show_error` and turned into
`"ERROR"`. -/
def send_command (st : GuiState) (tb : TransportBehavior) (cmd : String) :
    CmdResult :=
  if serOpen st then
    match tb with
    | .ok bytes =>
      let resp := pyStrip (utf8DecodeIgnore bytes)
      { response := resp,
        state :=
          { st with log := st.log ++ [">> " ++ pyStrip cmd ++ "\n" ++ resp] },
        events := [.write cmd, .sleep 50, .readLine] }
    | .failWrite e =>
      { response := "ERROR",
        state := show_error st ("Serial error: " ++ e),
        events := [] }
    | .failRead e =>
      { response := "ERROR",
        state := show_error st ("Serial error: " ++ e),
        events := [.write cmd, .sleep 50] }
  else
    { response := "ERROR",
      state := show_error st "Serial port not open.",
      events := [] }

/-- `read_scb_register(self, address, name)`: format the read command for a
known SCB register, send it, log `name: response`. -/
def read_scb_register (st : GuiState) (tb : TransportBehavior)
    (address : Int) (name : String) : GuiState × List Event :=
  let r := send_command st tb (render_read address)
  ({ r.state with log := r.state.log ++ [name ++ ": " ++ r.response] },
    r.events)

/-- `read_custom_register(self)`: strip the address text, parse it with
`int(addr_str, 16)`, send the read command and log, or show the
invalid-format error (the `except ValueError` branch). -/
def read_custom_register (st : GuiState) (tb : TransportBehavior)
    (addrText : String) : GuiState × List Event :=
  let addr_str := pyStrip addrText
  match pyIntHex addr_str with
  | some addr =>
    let r := send_command st tb (render_read addr)
    ({ r.state with
        log := r.state.log ++
          ["Read 0x" ++ formatX addr ++ ": " ++ r.response] },
      r.events)
  | none =>
    (show_error st "Invalid address format. Use hex (e.g., 0x48000010).", [])

/-- `write_custom_register(self)`: strip and parse address and value
(address first — a failure of either lands in the same `except ValueError`
branch), send the write command and log, or show the error. -/
def write_custom_register (st : GuiState) (tb : TransportBehavior)
    (addrText valText : String) : GuiState × List Event :=
  let addr_str := pyStrip addrText
  let val_str := pyStrip valText
  match pyIntHex addr_str, pyIntHex val_str with
  | some addr, some val =>
    let r := send_command st tb (render_write addr val)
    ({ r.state with
        log := r.state.log ++
          ["Wrote 0x" ++ formatX val ++ " to 0x" ++ formatX addr ++ ": " ++
            r.response] },
      r.events)
  | _, _ =>
    (show_error st
      "Invalid address or value format. Use hex (e.g., 0x48000010).", [])

/-- The compiled-in SCB register table of `terminal-gui.py`. -/
def SCB_REGISTERS : List (String × Nat) :=
  [("CPUID", 0xE000ED00), ("ICSR", 0xE000ED04), ("VTOR", 0xE000ED08),
   ("AIRCR", 0xE000ED0C), ("SCR", 0xE000ED10), ("CCR", 0xE000ED14)]

/-- Modelled from the spec: `read_named(name)` (§4.2) — the GUI wires each
table entry directly to a button and has no lookup-miss path, so the
miss behaviour (`UnknownRegister`, no transport contact) follows the
specification wording; a hit delegates to the register read exactly as the buttons
do. -/
def read_named (st : GuiState) (tb : TransportBehavior) (name : String) :
    GuiState × List Event :=
  match SCB_REGISTERS.lookup name with
  | some addr => read_scb_register st tb (addr : Int) name
  | none => (show_error st ("UnknownRegister: " ++ name), [])

/-- `set_connected_state(self, connected)`: flip the button-enable flag. -/
def set_connected_state (st : GuiState) (connected : Bool) : GuiState :=
  { st with uiConnected := connected }

/-- `disconnect_serial(self)`: close the port if it is open (logging
`"Disconnected."`), then disable the register buttons.  Closing a
`serial.Serial` clears its `is_open` flag. -/
def disconnect_serial (st : GuiState) : GuiState :=
  let st1 :=
    if serOpen st then
      { st with ser := some { is_open := false },
                log := st.log ++ ["Disconnected."] }
    else st
  set_connected_state st1 false

/-- `closeEvent(self, event)`: close the port if open, accept the event. -/
def closeEvent (st : GuiState) : GuiState :=
  if serOpen st then { st with ser := some { is_open := false } } else st

/-! ## The CLI client (`terminal.py`) -/

/-- `read_register(ser, address)`: write the rendered read command, then
immediately `ser.readline().decode().strip()` — no sleep, strict decode.
The response is `none` when an exception escapes (strict decode failure or
a transport fault); the surrounding REPL catches it. -/
def read_register (tb : TransportBehavior) (address : Int) :
    Option String × List Event :=
  match tb with
  | .ok bytes =>
    ((utf8DecodeStrict bytes).map pyStrip,
      [.write (render_read address), .readLine])
  | .failWrite _ => (none, [])
  | .failRead _ => (none, [.write (render_read address)])

/-- `write_register(ser, address, value)`: same shape with the write
command. -/
def write_register (tb : TransportBehavior) (address value : Int) :
    Option String × List Event :=
  match tb with
  | .ok bytes =>
    ((utf8DecodeStrict bytes).map pyStrip,
      [.write (render_write address value), .readLine])
  | .failWrite _ => (none, [])
  | .failRead _ => (none, [.write (render_write address value)])

/-- A concrete connected GUI state, used by the witnesses below. -/
def stOpen0 : GuiState :=
  { ser := some { is_open := true }, log := [], popups := [],
    uiConnected := true }

/-- A concrete never-connected GUI state. -/
def stClosed0 : GuiState :=
  { ser := none, log := [], popups := [], uiConnected := false }

/-! ## Lemmas on uppercase hexadecimal formatting -/

theorem hexCharVal_hexDigitChar : ∀ d < 16, hexCharVal (hexDigitChar d) = d := by
  decide

theorem hexDigitChar_upper : ∀ d < 16, isUpperHexDigit (hexDigitChar d) = true := by
  decide

theorem hexDigitChar_ne_zero_char : ∀ d < 16, d ≠ 0 → hexDigitChar d ≠ '0' := by
  decide

theorem hexDigitsAux_ne_nil {f n : Nat} (h : n < f) : hexDigitsAux f n ≠ [] := by
  cases f with
  | zero => omega
  | succ f' =>
    unfold hexDigitsAux
    split
    · simp
    · simp

theorem hexNatOfDigits_append (l : List Char) (c : Char) :
    hexNatOfDigits (l ++ [c]) = 16 * hexNatOfDigits l + hexCharVal c := by
  unfold hexNatOfDigits
  rw [List.foldl_append, List.foldl_cons, List.foldl_nil]

theorem hexDigitsAux_val : ∀ n f, n < f → hexNatOfDigits (hexDigitsAux f n) = n := by
  intro n
  induction n using Nat.strong_induction_on with
  | _ n ih =>
    intro f hf
    cases f with
    | zero => omega
    | succ f' =>
      unfold hexDigitsAux
      by_cases h16 : n < 16
      · simp only [if_pos h16]
        simp [hexNatOfDigits, hexCharVal_hexDigitChar n h16]
      · simp only [if_neg h16]
        have hd : n / 16 < n := Nat.div_lt_self (by omega) (by omega)
        rw [hexNatOfDigits_append,
          ih (n / 16) hd f' (by omega),
          hexCharVal_hexDigitChar (n % 16) (by omega)]
        omega

theorem hexDigitsAux_upper :
    ∀ n f, n < f → ∀ c ∈ hexDigitsAux f n, isUpperHexDigit c = true := by
  intro n
  induction n using Nat.strong_induction_on with
  | _ n ih =>
    intro f hf c hc
    cases f with
    | zero => omega
    | succ f' =>
      unfold hexDigitsAux at hc
      by_cases h16 : n < 16
      · rw [if_pos h16] at hc
        simp only [List.mem_singleton] at hc
        subst hc
        exact hexDigitChar_upper n h16
      · rw [if_neg h16] at hc
        have hd : n / 16 < n := Nat.div_lt_self (by omega) (by omega)
        rcases List.mem_append.mp hc with h1 | h1
        · exact ih (n / 16) hd f' (by omega) c h1
        · simp only [List.mem_singleton] at h1
          subst h1
          exact hexDigitChar_upper (n % 16) (by omega)

theorem head?_append_left {α : Type} {l : List α} (l' : List α) (h : l ≠ []) :
    (l ++ l').head? = l.head? := by
  cases l with
  | nil => exact absurd rfl h
  | cons a t => rfl

theorem hexDigitsAux_head :
    ∀ n f, n < f → n ≠ 0 → (hexDigitsAux f n).head? ≠ some '0' := by
  intro n
  induction n using Nat.strong_induction_on with
  | _ n ih =>
    intro f hf hn0
    cases f with
    | zero => omega
    | succ f' =>
      unfold hexDigitsAux
      by_cases h16 : n < 16
      · rw [if_pos h16]
        simp only [List.head?_cons, ne_eq, Option.some.injEq]
        exact hexDigitChar_ne_zero_char n h16 hn0
      · rw [if_neg h16]
        have hd : n / 16 < n := Nat.div_lt_self (by omega) (by omega)
        rw [head?_append_left _ (hexDigitsAux_ne_nil (by omega))]
        exact ih (n / 16) hd f' (by omega) (by omega)

theorem natToHexUpper_minimal (n : Nat) : minUpperHex (natToHexUpper n).data n := by
  refine ⟨hexDigitsAux_ne_nil (by omega), ?_, hexDigitsAux_val n (n + 1) (by omega), ?_⟩
  · exact hexDigitsAux_upper n (n + 1) (by omega)
  · intro hhead
    by_cases hn0 : n = 0
    · subst hn0
      rfl
    · exact absurd hhead (hexDigitsAux_head n (n + 1) (by omega) hn0)

theorem formatX_ofNat (a : Nat) : formatX (a : Int) = natToHexUpper a := by
  unfold formatX
  rw [if_neg (not_lt.mpr (Int.ofNat_nonneg a)), Int.natAbs_ofNat]

theorem render_read_ofNat (a : Nat) :
    render_read (a : Int) = "read 0x" ++ natToHexUpper a ++ "\r\n" := by
  unfold render_read
  rw [formatX_ofNat]

theorem render_write_ofNat (a v : Nat) :
    render_write (a : Int) (v : Int) =
      "write 0x" ++ natToHexUpper a ++ " 0x" ++ natToHexUpper v ++ "\r\n" := by
  unfold render_write
  rw [formatX_ofNat, formatX_ofNat]

/-! ## Lemmas on `str.strip()` and `int(text, 16)` -/

theorem dropWhile_eq_self_of_all {α : Type} (p : α → Bool) :
    ∀ l : List α, (∀ c ∈ l, p c = false) → l.dropWhile p = l := by
  intro l h
  cases l with
  | nil => rfl
  | cons a t =>
    rw [List.dropWhile_cons, h a (List.mem_cons_self a t)]
    simp

theorem pyStripChars_eq_self {l : List Char}
    (h : ∀ c ∈ l, isPySpace c = false) : pyStripChars l = l := by
  unfold pyStripChars
  rw [dropWhile_eq_self_of_all _ l h,
    dropWhile_eq_self_of_all _ l.reverse
      (fun c hc => h c (List.mem_reverse.mp hc)),
    List.reverse_reverse]

theorem mem_dropWhile_of_mem {α : Type} (p : α → Bool) :
    ∀ l : List α, ∀ c ∈ l, p c = false → c ∈ l.dropWhile p := by
  intro l
  induction l with
  | nil => intro c hc; exact absurd hc (List.not_mem_nil c)
  | cons a t ih =>
    intro c hc hp
    rw [List.dropWhile_cons]
    cases ha : p a with
    | true =>
      simp only [if_pos rfl]
      rcases List.mem_cons.mp hc with rfl | hct
      · rw [ha] at hp; exact absurd hp (by simp)
      · exact ih c hct hp
    | false =>
      simp only [Bool.false_eq_true, if_neg]
      exact hc

theorem mem_pyStripChars {l : List Char} {c : Char}
    (hc : c ∈ l) (hs : isPySpace c = false) : c ∈ pyStripChars l := by
  unfold pyStripChars
  rw [List.mem_reverse]
  exact mem_dropWhile_of_mem _ _ c
    (List.mem_reverse.mpr (mem_dropWhile_of_mem _ l c hc hs)) hs

theorem hexChar_not_special {c : Char} (h : isHexDigitChar c = true) :
    c ≠ '-' ∧ c ≠ '+' ∧ c ≠ 'x' ∧ c ≠ 'X' ∧ c ≠ '_' ∧ isPySpace c = false := by
  refine ⟨?_, ?_, ?_, ?_, ?_, ?_⟩
  · rintro rfl; exact absurd h (by decide)
  · rintro rfl; exact absurd h (by decide)
  · rintro rfl; exact absurd h (by decide)
  · rintro rfl; exact absurd h (by decide)
  · rintro rfl; exact absurd h (by decide)
  · cases hs : isPySpace c with
    | false => rfl
    | true =>
      exfalso
      unfold isPySpace at hs
      simp only [Bool.or_eq_true, decide_eq_true_eq] at hs
      rcases hs with ((((rfl | rfl) | rfl) | rfl) | rfl) | rfl <;>
        exact absurd h (by decide)

theorem hexDigitsVal_all_hex :
    ∀ (l : List Char) (acc : Nat), (∀ c ∈ l, isHexDigitChar c = true) →
      hexDigitsVal l acc =
        some (l.foldl (fun a c => 16 * a + hexCharVal c) acc) := by
  intro l
  induction l with
  | nil => intro acc _; rfl
  | cons c rest ih =>
    intro acc h
    have hc := h c (List.mem_cons_self c rest)
    have hne : ¬ (c = '_') := (hexChar_not_special hc).2.2.2.2.1
    unfold hexDigitsVal
    rw [if_neg hne, if_pos hc,
      ih (16 * acc + hexCharVal c) (fun d hd => h d (List.mem_cons_of_mem c hd)),
      List.foldl_cons]

theorem parseHexDigits_all_hex (p : Bool) (l : List Char) (hne : l ≠ [])
    (h : ∀ c ∈ l, isHexDigitChar c = true) :
    parseHexDigits p l = some (hexNatOfDigits l) := by
  cases l with
  | nil => exact absurd rfl hne
  | cons c rest =>
    have hc := h c (List.mem_cons_self c rest)
    simp only [parseHexDigits]
    rw [if_pos hc,
      hexDigitsVal_all_hex rest (hexCharVal c)
        (fun d hd => h d (List.mem_cons_of_mem c hd))]
    unfold hexNatOfDigits
    rw [List.foldl_cons]
    norm_num

theorem parseSign_not_sign {c : Char} (rest : List Char)
    (h1 : c ≠ '-') (h2 : c ≠ '+') :
    parseSign (c :: rest) = (false, c :: rest) := by
  simp only [parseSign]
  rw [if_neg h1, if_neg h2]

theorem parseHexPre_marker {c1 : Char} (rest : List Char)
    (h : c1 = 'x' ∨ c1 = 'X') : parseHexPre ('0' :: c1 :: rest) = (true, rest) := by
  rcases h with rfl | rfl <;> simp [parseHexPre]

theorem pyIntHex_specValid :
    ∀ l : List Char, specValidHex l = true →
      pyIntHex (String.mk l) = some ((hexNatOfDigits (specHexBody l) : Nat) : Int) := by
  intro l hv
  unfold specValidHex at hv
  rw [Bool.and_eq_true] at hv
  obtain ⟨hbody, hall⟩ := hv
  rw [List.all_eq_true] at hall
  by_cases hpre : specHasPre l = true
  · match l, hpre with
    | c0 :: c1 :: rest, hpre =>
      simp only [specHasPre, Bool.and_eq_true, Bool.or_eq_true,
        decide_eq_true_eq] at hpre
      obtain ⟨rfl, hc1⟩ := hpre
      have hbodyeq : specHexBody ('0' :: c1 :: rest) = rest := by
        rcases hc1 with rfl | rfl <;> simp [specHexBody, specHasPre]
      rw [hbodyeq] at hall hbody
      have hrest : ∀ c ∈ rest, isHexDigitChar c = true := fun c hc => hall c hc
      have hstrip : pyStripChars ('0' :: c1 :: rest) = '0' :: c1 :: rest := by
        apply pyStripChars_eq_self
        intro c hc
        rcases List.mem_cons.mp hc with rfl | hc2
        · decide
        · rcases List.mem_cons.mp hc2 with rfl | hc3
          · rcases hc1 with rfl | rfl <;> decide
          · exact (hexChar_not_special (hrest c hc3)).2.2.2.2.2
      have hrestne : rest ≠ [] := by
        intro hnil
        rw [hnil] at hbody
        exact absurd hbody (by decide)
      unfold pyIntHex
      rw [hstrip, hbodyeq]
      show (match parseHexDigits (parseHexPre (parseSign ('0' :: c1 :: rest)).2).1
          (parseHexPre (parseSign ('0' :: c1 :: rest)).2).2 with
        | none => none
        | some n =>
          some (if (parseSign ('0' :: c1 :: rest)).1 then -(n : Int) else (n : Int))) =
        some ((hexNatOfDigits rest : Nat) : Int)
      rw [parseSign_not_sign (c1 :: rest) (by decide) (by decide),
        parseHexPre_marker rest hc1,
        parseHexDigits_all_hex true rest hrestne hrest]
      rfl
  · have hbodyeq : specHexBody l = l := by
      unfold specHexBody
      rw [if_neg hpre]
    rw [hbodyeq] at hall hbody
    have hlne : l ≠ [] := by
      intro hnil
      rw [hnil] at hbody
      exact absurd hbody (by decide)
    have hhex : ∀ c ∈ l, isHexDigitChar c = true := fun c hc => hall c hc
    have hstrip : pyStripChars l = l :=
      pyStripChars_eq_self (fun c hc => (hexChar_not_special (hhex c hc)).2.2.2.2.2)
    match l, hlne with
    | c :: rest, _ =>
      have hc := hhex c (List.mem_cons_self c rest)
      have hprefalse : parseHexPre (c :: rest) = (false, c :: rest) := by
        cases rest with
        | nil => rfl
        | cons c1 rest2 =>
          have hc1 := hhex c1 (by simp)
          simp only [parseHexPre]
          rw [if_neg]
          intro hcond
          simp only [Bool.and_eq_true, Bool.or_eq_true, decide_eq_true_eq] at hcond
          rcases hcond.2 with rfl | rfl
          · exact absurd hc1 (by decide)
          · exact absurd hc1 (by decide)
      unfold pyIntHex
      rw [hstrip, hbodyeq]
      show (match parseHexDigits (parseHexPre (parseSign (c :: rest)).2).1
          (parseHexPre (parseSign (c :: rest)).2).2 with
        | none => none
        | some n =>
          some (if (parseSign (c :: rest)).1 then -(n : Int) else (n : Int))) =
        some ((hexNatOfDigits (c :: rest) : Nat) : Int)
      rw [parseSign_not_sign rest (hexChar_not_special hc).1
          (hexChar_not_special hc).2.1,
        hprefalse,
        parseHexDigits_all_hex false (c :: rest) (by simp) hhex]
      rfl

theorem length_strong_ind {α : Type} {P : List α → Prop}
    (step : ∀ l, (∀ m : List α, m.length < l.length → P m) → P l) :
    ∀ l, P l := by
  intro l
  generalize hn : l.length = n
  induction n using Nat.strong_induction_on generalizing l with
  | _ n ih =>
    subst hn
    exact step l (fun m hm => ih m.length hm m rfl)

theorem hexDigitsVal_none_of_bad {c : Char}
    (hhex : isHexDigitChar c = false) (hus : c ≠ '_') :
    ∀ l : List Char, c ∈ l → ∀ acc, hexDigitsVal l acc = none := by
  refine length_strong_ind (fun l ih hc acc => ?_)
  cases l with
  | nil => exact absurd hc (List.not_mem_nil c)
  | cons d rest =>
    unfold hexDigitsVal
    by_cases hd : d = '_'
    · rw [if_pos hd]
      cases rest with
      | nil => rfl
      | cons e rest2 =>
        show (if isHexDigitChar e = true then
            hexDigitsVal rest2 (16 * acc + hexCharVal e) else none) = none
        by_cases he : isHexDigitChar e = true
        · rw [if_pos he]
          have hcr : c ∈ rest2 := by
            rcases List.mem_cons.mp hc with rfl | h1
            · exact absurd hd hus
            · rcases List.mem_cons.mp h1 with rfl | h2
              · rw [he] at hhex; exact absurd hhex (by simp)
              · exact h2
          exact ih rest2 (by simp only [List.length_cons]; omega) hcr _
        · rw [if_neg he]
    · rw [if_neg hd]
      by_cases hdx : isHexDigitChar d = true
      · rw [if_pos hdx]
        have hcr : c ∈ rest := by
          rcases List.mem_cons.mp hc with rfl | h1
          · rw [hdx] at hhex; exact absurd hhex (by simp)
          · exact h1
        exact ih rest (by simp only [List.length_cons]; omega) hcr _
      · rw [if_neg hdx]

theorem mem_parseSign_snd {c : Char} (h1 : c ≠ '-') (h2 : c ≠ '+') :
    ∀ l : List Char, c ∈ l → c ∈ (parseSign l).2 := by
  intro l hc
  cases l with
  | nil => exact absurd hc (List.not_mem_nil c)
  | cons d rest =>
    simp only [parseSign]
    by_cases hd : d = '-'
    · rw [if_pos hd]
      show c ∈ rest
      rcases List.mem_cons.mp hc with rfl | h
      · exact absurd hd h1
      · exact h
    · rw [if_neg hd]
      by_cases hp : d = '+'
      · rw [if_pos hp]
        show c ∈ rest
        rcases List.mem_cons.mp hc with rfl | h
        · exact absurd hp h2
        · exact h
      · rw [if_neg hp]
        exact hc

theorem mem_parseHexPre_snd {c : Char} (h0 : c ≠ '0') (hx : c ≠ 'x')
    (hX : c ≠ 'X') : ∀ l : List Char, c ∈ l → c ∈ (parseHexPre l).2 := by
  intro l hc
  match l with
  | [] => exact absurd hc (List.not_mem_nil c)
  | [d] => exact hc
  | c0 :: c1 :: rest =>
    simp only [parseHexPre]
    by_cases hcond : (c0 = '0' && (c1 = 'x' || c1 = 'X')) = true
    · rw [if_pos hcond]
      show c ∈ rest
      simp only [Bool.and_eq_true, Bool.or_eq_true, decide_eq_true_eq] at hcond
      obtain ⟨rfl, hc1⟩ := hcond
      rcases List.mem_cons.mp hc with rfl | h1
      · exact absurd rfl h0
      · rcases List.mem_cons.mp h1 with rfl | h2
        · rcases hc1 with rfl | rfl
          · exact absurd rfl hx
          · exact absurd rfl hX
        · exact h2
    · rw [if_neg hcond]
      exact hc

theorem parseHexDigits_none_of_bad {c : Char} (hhex : isHexDigitChar c = false)
    (hus : c ≠ '_') (p : Bool) :
    ∀ l : List Char, c ∈ l → parseHexDigits p l = none := by
  intro l hc
  cases l with
  | nil => rfl
  | cons d rest =>
    simp only [parseHexDigits]
    by_cases hd : isHexDigitChar d = true
    · rw [if_pos hd]
      have hcr : c ∈ rest := by
        rcases List.mem_cons.mp hc with rfl | h1
        · rw [hd] at hhex; exact absurd hhex (by simp)
        · exact h1
      exact hexDigitsVal_none_of_bad hhex hus rest hcr _
    · rw [if_neg hd]
      by_cases hcond : (p && d = '_') = true
      · rw [if_pos hcond]
        simp only [Bool.and_eq_true, decide_eq_true_eq] at hcond
        cases rest with
        | nil => rfl
        | cons e rest2 =>
          show (if isHexDigitChar e = true then
              hexDigitsVal rest2 (hexCharVal e) else none) = none
          by_cases he : isHexDigitChar e = true
          · rw [if_pos he]
            have hcr : c ∈ rest2 := by
              rcases List.mem_cons.mp hc with rfl | h1
              · exact absurd hcond.2 hus
              · rcases List.mem_cons.mp h1 with rfl | h2
                · rw [he] at hhex; exact absurd hhex (by simp)
                · exact h2
            exact hexDigitsVal_none_of_bad hhex hus rest2 hcr _
          · rw [if_neg he]
      · rw [if_neg hcond]

theorem pyIntHex_none_of_bad (s : String) (c : Char)
    (hc : c ∈ s.data) (hbad : allowedPyHexChar c = false) : pyIntHex s = none := by
  unfold allowedPyHexChar at hbad
  simp only [Bool.or_eq_false_iff, decide_eq_false_iff_not] at hbad
  obtain ⟨⟨⟨⟨⟨⟨hhex, hsp⟩, hus⟩, hplus⟩, hminus⟩, hx⟩, hX⟩ := hbad
  have h0 : c ≠ '0' := by
    rintro rfl
    exact absurd hhex (by decide)
  have hsd : c ∈ pyStripChars s.data := mem_pyStripChars hc hsp
  have h1 : c ∈ (parseSign (pyStripChars s.data)).2 :=
    mem_parseSign_snd hminus hplus _ hsd
  have h2 : c ∈ (parseHexPre (parseSign (pyStripChars s.data)).2).2 :=
    mem_parseHexPre_snd h0 hx hX _ h1
  unfold pyIntHex
  show (match parseHexDigits (parseHexPre (parseSign (pyStripChars s.data)).2).1
      (parseHexPre (parseSign (pyStripChars s.data)).2).2 with
    | none => none
    | some n =>
      some (if (parseSign (pyStripChars s.data)).1 then -(n : Int) else (n : Int))) =
    none
  rw [parseHexDigits_none_of_bad hhex hus _ _ h2]

/-! ## Lemmas on UTF-8 decoding -/

theorem utf8DecIgnoreAux_ascii :
    ∀ (bs : List Nat) (f : Nat), bs.length ≤ f → (∀ b ∈ bs, b < 128) →
      utf8DecIgnoreAux f bs = bs.map Char.ofNat := by
  intro bs
  induction bs with
  | nil =>
    intro f _ _
    cases f with
    | zero => rfl
    | succ f' => rfl
  | cons b rest ih =>
    intro f hf hall
    cases f with
    | zero => simp only [List.length_cons] at hf; omega
    | succ f' =>
      have hb : b < 128 := hall b (List.mem_cons_self b rest)
      simp only [utf8DecIgnoreAux]
      rw [if_pos hb,
        ih f' (by simp only [List.length_cons] at hf; omega)
          (fun d hd => hall d (List.mem_cons_of_mem b hd)),
        List.map_cons]

theorem utf8DecodeIgnore_ascii (bs : List Nat) (h : ∀ b ∈ bs, b < 128) :
    utf8DecodeIgnore bs = String.mk (bs.map Char.ofNat) := by
  unfold utf8DecodeIgnore
  rw [utf8DecIgnoreAux_ascii bs bs.length le_rfl h]

/-! ## Lemmas on the GUI client operations -/

theorem send_command_closed (st : GuiState) (tb : TransportBehavior)
    (cmd : String) (h : serOpen st = false) :
    send_command st tb cmd =
      { response := "ERROR", state := show_error st "Serial port not open.",
        events := [] } := by
  unfold send_command
  rw [if_neg]
  rw [h]
  simp

theorem send_command_ok (st : GuiState) (bytes : List Nat) (cmd : String)
    (h : serOpen st = true) :
    send_command st (.ok bytes) cmd =
      { response := pyStrip (utf8DecodeIgnore bytes),
        state :=
          { st with log := st.log ++
              [">> " ++ pyStrip cmd ++ "\n" ++ pyStrip (utf8DecodeIgnore bytes)] },
        events := [.write cmd, .sleep 50, .readLine] } := by
  unfold send_command
  rw [if_pos h]

theorem send_command_failWrite (st : GuiState) (e : String) (cmd : String)
    (h : serOpen st = true) :
    send_command st (.failWrite e) cmd =
      { response := "ERROR", state := show_error st ("Serial error: " ++ e),
        events := [] } := by
  unfold send_command
  rw [if_pos h]

theorem send_command_failRead (st : GuiState) (e : String) (cmd : String)
    (h : serOpen st = true) :
    send_command st (.failRead e) cmd =
      { response := "ERROR", state := show_error st ("Serial error: " ++ e),
        events := [.write cmd, .sleep 50] } := by
  unfold send_command
  rw [if_pos h]

theorem upperHex_isHex {c : Char} (h : isUpperHexDigit c = true) :
    isHexDigitChar c = true := by
  unfold isUpperHexDigit at h
  unfold isHexDigitChar
  simp only [Bool.or_eq_true, Bool.and_eq_true, decide_eq_true_eq] at h ⊢
  omega

theorem specHasPre_of_upper {l : List Char}
    (h : ∀ c ∈ l, isUpperHexDigit c = true) : specHasPre l = false := by
  match l with
  | [] => rfl
  | [c] => rfl
  | c0 :: c1 :: rest =>
    have hc1 := hexChar_not_special (upperHex_isHex (h c1 (by simp)))
    simp only [specHasPre]
    rw [decide_eq_false hc1.2.2.1, decide_eq_false hc1.2.2.2.1]
    simp

theorem pyIntHex_natToHexUpper (n : Nat) :
    pyIntHex (natToHexUpper n) = some (n : Int) := by
  obtain ⟨hne, hupper, hval, _⟩ := natToHexUpper_minimal n
  have hpre : specHasPre (natToHexUpper n).data = false := specHasPre_of_upper hupper
  have hbodyeq : specHexBody (natToHexUpper n).data = (natToHexUpper n).data := by
    unfold specHexBody
    rw [hpre]
    simp
  have hvalid : specValidHex (natToHexUpper n).data = true := by
    unfold specValidHex
    rw [hbodyeq]
    simp only [Bool.and_eq_true, Bool.not_eq_eq_eq_not, Bool.not_true,
      List.all_eq_true]
    constructor
    · cases hl : (natToHexUpper n).data with
      | nil => exact absurd hl hne
      | cons a t => rfl
    · intro c hc
      exact upperHex_isHex (hupper c hc)
  have := pyIntHex_specValid (natToHexUpper n).data hvalid
  rw [show String.mk (natToHexUpper n).data = natToHexUpper n from rfl] at this
  rw [this, hbodyeq, hval]

theorem isMinUpperHexStr_natToHexUpper (n : Nat) :
    isMinUpperHexStr (natToHexUpper n).data = true := by
  obtain ⟨hne, hupper, _, hhead⟩ := natToHexUpper_minimal n
  unfold isMinUpperHexStr
  simp only [Bool.and_eq_true, Bool.or_eq_true, List.all_eq_true]
  refine ⟨⟨?_, fun c hc => hupper c hc⟩, ?_⟩
  · cases hl : (natToHexUpper n).data with
    | nil => exact absurd hl hne
    | cons a t => rfl
  · by_cases hz : (natToHexUpper n).data.head? = some '0'
    · left
      rw [hhead hz]
      rfl
    · right
      simp only [bne_iff_ne, ne_eq]
      exact hz

theorem isReadWire_render (a : Nat) :
    isReadWire (render_read (a : Int)) = true := by
  rw [render_read_ofNat]
  have hdata : ("read 0x" ++ natToHexUpper a ++ "\r\n").data =
      ("read 0x").data ++ ((natToHexUpper a).data ++ ("\r\n").data) := by
    simp [List.append_assoc]
  unfold isReadWire
  rw [hdata]
  have h7 : ("read 0x").data.length = 7 := rfl
  have htake : (("read 0x").data ++
      ((natToHexUpper a).data ++ ("\r\n").data)).take 7 = ("read 0x").data := by
    rw [show (7 : Nat) = ("read 0x").data.length from rfl]
    exact List.take_left _ _
  have hdrop : (("read 0x").data ++
      ((natToHexUpper a).data ++ ("\r\n").data)).drop 7 =
      (natToHexUpper a).data ++ ("\r\n").data := by
    rw [show (7 : Nat) = ("read 0x").data.length from rfl]
    exact List.drop_left _ _
  rw [htake, hdrop]
  have hlen : ((natToHexUpper a).data ++ ("\r\n").data).length - 2 =
      (natToHexUpper a).data.length := by
    simp [List.length_append]
  rw [hlen]
  have htail : ((natToHexUpper a).data ++ ("\r\n").data).drop
      (natToHexUpper a).data.length = ("\r\n").data := List.drop_left _ _
  have hmid : ((natToHexUpper a).data ++ ("\r\n").data).take
      (natToHexUpper a).data.length = (natToHexUpper a).data :=
    List.take_left _ _
  rw [htail, hmid]
  simp [isMinUpperHexStr_natToHexUpper a]

/-! ## The claims -/

/-- C1: for every 32-bit unsigned address the rendered read command is
exactly the wire string composed of "read 0x", the minimal uppercase
hexadecimal form of the address, and CR LF; likewise for the write command
with address and value; in particular address 0x48000010 renders to
"read 0x48000010" CR LF and the 0xE000ED0C / 0x5FA0004 pair renders to
"write 0xE000ED0C 0x5FA0004" CR LF. -/
theorem wire_format_correct :
    (∀ a : Nat, a < 2 ^ 32 →
      render_read (a : Int) = "read 0x" ++ natToHexUpper a ++ "\r\n" ∧
      minUpperHex (natToHexUpper a).data a) ∧
    (∀ a v : Nat, a < 2 ^ 32 → v < 2 ^ 32 →
      render_write (a : Int) (v : Int) =
        "write 0x" ++ natToHexUpper a ++ " 0x" ++ natToHexUpper v ++ "\r\n" ∧
      minUpperHex (natToHexUpper v).data v) ∧
    render_read 0x48000010 = "read 0x48000010\r\n" ∧
    render_write 0xE000ED0C 0x5FA0004 = "write 0xE000ED0C 0x5FA0004\r\n" := by
  refine ⟨fun a _ => ⟨render_read_ofNat a, natToHexUpper_minimal a⟩,
    fun a v _ _ => ⟨render_write_ofNat a v, natToHexUpper_minimal v⟩, ?_, ?_⟩
  · rfl
  · rfl

/-- C1 witness: the general statement evaluated at address 0x48000010. -/
theorem wire_format_correct_witness :
    render_read ((0x48000010 : Nat) : Int) =
      "read 0x" ++ natToHexUpper 0x48000010 ++ "\r\n" ∧
    minUpperHex (natToHexUpper 0x48000010).data 0x48000010 :=
  wire_format_correct.1 0x48000010 (by decide)

/-- C2 counterexample: the hexadecimal parsing in the code is Python
`int(text, 16)`, which accepts the nine-digit string "100000000"
(value 2^32, exceeding 32 bits) instead of failing, and accepts "+1"
although a leading sign is outside the specification hex grammar. -/
theorem parse_hex_32bit_cex :
    pyIntHex "100000000" = some 4294967296 ∧
    ¬ ((4294967296 : Int) < 2 ^ 32) ∧
    pyIntHex "+1" = some 1 ∧
    specValidHex ("+1" : String).data = false := by
  exact ⟨by decide, by decide, by decide, by decide⟩

/-- C2 amended: parsing yields the canonical base-16 interpretation on
every string of the specification hex grammar (optional 0x/0X marker,
case-insensitive digits) but with no 32-bit bound; it fails on the empty
string and on any string containing a character that can never occur in a
hex numeral accepted by `int(text, 16)` (anything outside hex digits,
whitespace, underscore, sign and marker letters). -/
theorem parse_hex_amended :
    (∀ l : List Char, specValidHex l = true →
      pyIntHex (String.mk l) = some ((hexNatOfDigits (specHexBody l) : Nat) : Int)) ∧
    pyIntHex "" = none ∧
    (∀ (s : String) (c : Char), c ∈ s.data → allowedPyHexChar c = false →
      pyIntHex s = none) :=
  ⟨pyIntHex_specValid, by decide, pyIntHex_none_of_bad⟩

/-- C2 amended witness: the parse evaluated on "0x1f" and on "0xZZ". -/
theorem parse_hex_amended_witness :
    pyIntHex (String.mk ['0', 'x', '1', 'f']) =
      some ((hexNatOfDigits (specHexBody ['0', 'x', '1', 'f']) : Nat) : Int) ∧
    pyIntHex "0xZZ" = none :=
  ⟨parse_hex_amended.1 ['0', 'x', '1', 'f'] (by decide),
    parse_hex_amended.2.2 "0xZZ" 'Z' (by decide) (by decide)⟩

/-- C3: with no open connection, `send_command` (the common path of every
GUI register read/write) reports the not-connected error, returns the
error response, and performs zero transport steps; consequently every
event trace of every register operation is empty. -/
theorem not_connected_blocks :
    ∀ (st : GuiState) (tb : TransportBehavior), serOpen st = false →
      (∀ cmd, (send_command st tb cmd).response = "ERROR" ∧
        (send_command st tb cmd).events = [] ∧
        (send_command st tb cmd).state.popups =
          st.popups ++ ["Serial port not open."]) ∧
      (∀ (a : Int) (n : String), (read_scb_register st tb a n).2 = []) ∧
      (∀ t, (read_custom_register st tb t).2 = []) ∧
      (∀ t u, (write_custom_register st tb t u).2 = []) := by
  intro st tb h
  have hsend := fun cmd => send_command_closed st tb cmd h
  refine ⟨fun cmd => ?_, fun a n => ?_, fun t => ?_, fun t u => ?_⟩
  · rw [hsend cmd]
    exact ⟨rfl, rfl, rfl⟩
  · simp only [read_scb_register, hsend]
  · simp only [read_custom_register]
    cases hparse : pyIntHex (pyStrip t) with
    | none => rfl
    | some addr => simp only [hsend]
  · simp only [write_custom_register]
    cases h1 : pyIntHex (pyStrip t) with
    | none => rfl
    | some addr =>
      cases h2 : pyIntHex (pyStrip u) with
      | none => rfl
      | some v => simp only [hsend]

/-- C3 witness: a never-connected state with a live transport double. -/
theorem not_connected_blocks_witness :
    (send_command stClosed0 (.ok []) "read 0x0\r\n").response = "ERROR" ∧
    (send_command stClosed0 (.ok []) "read 0x0\r\n").events = [] ∧
    (send_command stClosed0 (.ok []) "read 0x0\r\n").state.popups =
      stClosed0.popups ++ ["Serial port not open."] :=
  (not_connected_blocks stClosed0 (.ok []) (by decide)).1 "read 0x0\r\n"

/-- C4 counterexample: on the byte 255 the GUI read path returns the
empty response because `errors=ignore` drops the invalid byte, whereas
decoding with invalid sequences replaced yields the replacement character;
and the strict CLI `.decode()` raises (modelled as `none`) rather than
never raising. -/
theorem read_line_replace_cex :
    (send_command stOpen0 (.ok [255]) "read 0x0\r\n").response = "" ∧
    utf8DecodeReplace [255] = "�" ∧
    (("" : String) = "�" → False) ∧
    utf8DecodeStrict [255] = none := by
  exact ⟨by decide, by decide, by decide, by decide⟩

/-- C4 amended: the GUI read path never raises — for every received byte
sequence the response is the bytes decoded with invalid sequences dropped
(`errors=ignore`), then stripped; ASCII bytes decode to themselves; when
the device sends nothing the response is empty; the byte 255 is dropped
entirely.  (The CLI path uses strict decoding, which can raise.) -/
theorem read_line_total :
    (∀ (st : GuiState) (cmd : String) (bytes : List Nat), serOpen st = true →
      (send_command st (.ok bytes) cmd).response =
        pyStrip (utf8DecodeIgnore bytes)) ∧
    (∀ bytes : List Nat, (∀ b ∈ bytes, b < 128) →
      utf8DecodeIgnore bytes = String.mk (bytes.map Char.ofNat)) ∧
    (∀ (st : GuiState) (cmd : String), serOpen st = true →
      (send_command st (.ok []) cmd).response = "") ∧
    utf8DecodeIgnore [255] = "" := by
  refine ⟨fun st cmd bytes h => by rw [send_command_ok st bytes cmd h],
    utf8DecodeIgnore_ascii,
    fun st cmd h => by rw [send_command_ok st [] cmd h]; rfl, by decide⟩

/-- C4 amended witness: an open state receiving "OK" CR LF, and one
receiving nothing. -/
theorem read_line_total_witness :
    (send_command stOpen0 (.ok [79, 75, 13, 10]) "read 0x0\r\n").response =
      pyStrip (utf8DecodeIgnore [79, 75, 13, 10]) ∧
    (send_command stOpen0 (.ok []) "read 0x0\r\n").response = "" :=
  ⟨read_line_total.1 stOpen0 "read 0x0\r\n" [79, 75, 13, 10] (by decide),
    read_line_total.2.2.1 stOpen0 "read 0x0\r\n" (by decide)⟩

/-- C5: every transport fault during send or receive on an open connection
is caught and converted to the fixed "ERROR" response, and additionally
reported through the distinct popup channel (`show_error`), never
propagating. -/
theorem transport_fault_to_error :
    ∀ (st : GuiState) (cmd e : String), serOpen st = true →
      ((send_command st (.failWrite e) cmd).response = "ERROR" ∧
        (send_command st (.failWrite e) cmd).state.popups =
          st.popups ++ ["Serial error: " ++ e]) ∧
      ((send_command st (.failRead e) cmd).response = "ERROR" ∧
        (send_command st (.failRead e) cmd).state.popups =
          st.popups ++ ["Serial error: " ++ e]) := by
  intro st cmd e h
  rw [send_command_failWrite st e cmd h, send_command_failRead st e cmd h]
  exact ⟨⟨rfl, rfl⟩, rfl, rfl⟩

/-- C5 witness: a faulting transport on a concrete open state. -/
theorem transport_fault_to_error_witness :
    ((send_command stOpen0 (.failWrite "boom") "read 0x0\r\n").response =
        "ERROR" ∧
      (send_command stOpen0 (.failWrite "boom") "read 0x0\r\n").state.popups =
        stOpen0.popups ++ ["Serial error: " ++ "boom"]) ∧
    ((send_command stOpen0 (.failRead "boom") "read 0x0\r\n").response =
        "ERROR" ∧
      (send_command stOpen0 (.failRead "boom") "read 0x0\r\n").state.popups =
        stOpen0.popups ++ ["Serial error: " ++ "boom"]) :=
  transport_fault_to_error stOpen0 "read 0x0\r\n" "boom" (by decide)

/-- C6 counterexample: the CLI client function `read_register` (terminal.py)
writes and then immediately reads — its transport trace contains no sleep
event at all, contradicting the claim that every read performs a ~50 ms
grace delay between write and read. -/
theorem grace_delay_cex :
    (read_register (.ok []) 72).2 =
      [Event.write "read 0x48\r\n", Event.readLine] ∧
    Event.sleep 50 ∉ (read_register (.ok []) 72).2 := by
  exact ⟨by decide, by decide⟩

/-- C6 amended: the GUI `send_command` performs write, then a 50 ms
sleep, then the read, in that order; the CLI `read_register` and
`write_register` perform write then read with no grace delay. -/
theorem write_sleep_read_order :
    (∀ (st : GuiState) (cmd : String) (bytes : List Nat), serOpen st = true →
      (send_command st (.ok bytes) cmd).events =
        [.write cmd, .sleep 50, .readLine]) ∧
    (∀ (a : Int) (bytes : List Nat),
      (read_register (.ok bytes) a).2 = [.write (render_read a), .readLine]) ∧
    (∀ (a v : Int) (bytes : List Nat),
      (write_register (.ok bytes) a v).2 =
        [.write (render_write a v), .readLine]) := by
  refine ⟨fun st cmd bytes h => by rw [send_command_ok st bytes cmd h],
    fun a bytes => rfl, fun a v bytes => rfl⟩

/-- C6 amended witness: the GUI ordering on a concrete open state. -/
theorem write_sleep_read_order_witness :
    (send_command stOpen0 (.ok []) "read 0x0\r\n").events =
      [.write "read 0x0\r\n", .sleep 50, .readLine] :=
  write_sleep_read_order.1 stOpen0 "read 0x0\r\n" [] (by decide)

/-- C7: the compiled-in table maps CPUID, ICSR, VTOR, AIRCR, SCR, CCR to
their documented addresses; a named read delegates to exactly the same
register read (hence the same wire command) as the mapped address — in
particular CPUID issues the read command for 0xE000ED00 — and a name
absent from the table fails with UnknownRegister performing no transport
step. -/
theorem read_named_table :
    (SCB_REGISTERS.lookup "CPUID" = some 0xE000ED00 ∧
      SCB_REGISTERS.lookup "ICSR" = some 0xE000ED04 ∧
      SCB_REGISTERS.lookup "VTOR" = some 0xE000ED08 ∧
      SCB_REGISTERS.lookup "AIRCR" = some 0xE000ED0C ∧
      SCB_REGISTERS.lookup "SCR" = some 0xE000ED10 ∧
      SCB_REGISTERS.lookup "CCR" = some 0xE000ED14) ∧
    (∀ (st : GuiState) (tb : TransportBehavior) (name : String) (addr : Nat),
      SCB_REGISTERS.lookup name = some addr →
      read_named st tb name = read_scb_register st tb (addr : Int) name) ∧
    (∀ (st : GuiState) (bytes : List Nat), serOpen st = true →
      (read_named st (.ok bytes) "CPUID").2 =
        [.write (render_read ((0xE000ED00 : Nat) : Int)), .sleep 50,
          .readLine]) ∧
    SCB_REGISTERS.lookup "BOGUS" = none ∧
    (∀ (st : GuiState) (tb : TransportBehavior),
      (read_named st tb "BOGUS").2 = [] ∧
      (read_named st tb "BOGUS").1.popups =
        st.popups ++ ["UnknownRegister: BOGUS"]) := by
  refine ⟨by decide, fun st tb name addr h => ?_, fun st bytes h => ?_,
    by decide, fun st tb => ?_⟩
  · unfold read_named
    rw [h]
  · have hl : SCB_REGISTERS.lookup "CPUID" = some 0xE000ED00 := by decide
    unfold read_named
    rw [hl]
    simp only [read_scb_register]
    rw [send_command_ok st bytes _ h]
  · have hb : SCB_REGISTERS.lookup "BOGUS" = none := by decide
    unfold read_named
    rw [hb]
    exact ⟨rfl, rfl⟩

/-- C7 witness: the delegation equation instantiated at CPUID. -/
theorem read_named_table_witness :
    read_named stOpen0 (.ok []) "CPUID" =
      read_scb_register stOpen0 (.ok []) ((0xE000ED00 : Nat) : Int) "CPUID" :=
  read_named_table.2.1 stOpen0 (.ok []) "CPUID" 0xE000ED00 (by decide)

/-- C8: `disconnect_serial` is idempotent and total — closing twice equals
closing once, closing a never-opened transport touches neither the port
nor the log, and after any close the transport is closed; the same holds
for the window-close handler. -/
theorem close_idempotent_total :
    (∀ st, disconnect_serial (disconnect_serial st) = disconnect_serial st) ∧
    (∀ st, serOpen (disconnect_serial st) = false) ∧
    (∀ st, st.ser = none →
      (disconnect_serial st).ser = none ∧
      (disconnect_serial st).log = st.log ∧
      (disconnect_serial st).popups = st.popups) ∧
    (∀ st, closeEvent (closeEvent st) = closeEvent st) ∧
    (∀ st, serOpen (closeEvent st) = false) := by
  refine ⟨fun st => ?_, fun st => ?_, fun st h => ?_, fun st => ?_,
    fun st => ?_⟩
  · obtain ⟨ser, log, popups, ui⟩ := st
    match ser with
    | none => rfl
    | some ⟨true⟩ => rfl
    | some ⟨false⟩ => rfl
  · obtain ⟨ser, log, popups, ui⟩ := st
    match ser with
    | none => rfl
    | some ⟨true⟩ => rfl
    | some ⟨false⟩ => rfl
  · obtain ⟨ser, log, popups, ui⟩ := st
    have h' : ser = none := h
    subst h'
    exact ⟨rfl, rfl, rfl⟩
  · obtain ⟨ser, log, popups, ui⟩ := st
    match ser with
    | none => rfl
    | some ⟨true⟩ => rfl
    | some ⟨false⟩ => rfl
  · obtain ⟨ser, log, popups, ui⟩ := st
    match ser with
    | none => rfl
    | some ⟨true⟩ => rfl
    | some ⟨false⟩ => rfl

/-- C8 witness: closing a never-opened transport. -/
theorem close_idempotent_total_witness :
    (disconnect_serial stClosed0).ser = none ∧
    (disconnect_serial stClosed0).log = stClosed0.log ∧
    (disconnect_serial stClosed0).popups = stClosed0.popups :=
  close_idempotent_total.2.2.1 stClosed0 rfl

/-- C9 counterexample: with the specification notion of hexadecimal validation
(`parse_hex`, which rejects values over 32 bits and signed forms), the
texts "100000000" and "-1" fail validation, yet the GUI read path parses
them with `int(text, 16)` and performs a transport write of the resulting
out-of-format command. -/
theorem invalid_reaches_transport_cex :
    spec_parse_hex "100000000" = none ∧
    Event.write "read 0x100000000\r\n" ∈
      (read_custom_register stOpen0 (.ok []) "100000000").2 ∧
    spec_parse_hex "-1" = none ∧
    Event.write "read 0x-1\r\n" ∈
      (read_custom_register stOpen0 (.ok []) "-1").2 := by
  exact ⟨by decide, by decide, by decide, by decide⟩

/-- C9 amended: for every address/value text rejected by the actual code
hexadecimal validation (`int(text, 16)` on the stripped text), no
transport step happens and the invalid-format error is surfaced; texts
that pass that parse reach the transport even when they fail the specification
32-bit validation. -/
theorem invalid_text_no_transport :
    (∀ (st : GuiState) (tb : TransportBehavior) (t : String),
      pyIntHex (pyStrip t) = none →
      (read_custom_register st tb t).2 = [] ∧
      (read_custom_register st tb t).1.popups =
        st.popups ++ ["Invalid address format. Use hex (e.g., 0x48000010)."]) ∧
    (∀ (st : GuiState) (tb : TransportBehavior) (t u : String),
      pyIntHex (pyStrip t) = none ∨ pyIntHex (pyStrip u) = none →
      (write_custom_register st tb t u).2 = [] ∧
      (write_custom_register st tb t u).1.popups =
        st.popups ++
          ["Invalid address or value format. Use hex (e.g., 0x48000010)."]) := by
  constructor
  · intro st tb t h
    simp only [read_custom_register]
    rw [h]
    exact ⟨rfl, rfl⟩
  · intro st tb t u h
    simp only [write_custom_register]
    rcases h with h | h
    · rw [h]
      exact ⟨rfl, rfl⟩
    · cases h1 : pyIntHex (pyStrip t) with
      | none => exact ⟨rfl, rfl⟩
      | some a => rw [h]; exact ⟨rfl, rfl⟩

/-- C9 amended witness: the read path on the unparsable text "xyz". -/
theorem invalid_text_no_transport_witness :
    (read_custom_register stOpen0 (.ok []) "xyz").2 = [] ∧
    (read_custom_register stOpen0 (.ok []) "xyz").1.popups =
      stOpen0.popups ++ ["Invalid address format. Use hex (e.g., 0x48000010)."] :=
  invalid_text_no_transport.1 stOpen0 (.ok []) "xyz" (by decide)

/-- C10: the hexadecimal parsing in the code accepts strings outside the specification
grammar — surrounding whitespace, a leading sign, underscores between
digits — with no 32-bit bound (every natural number round-trips through
its hexadecimal rendering), and for the accepted text "-1" the rendered
command "read 0x-1" CR LF fails the documented wire format, which every
32-bit address satisfies. -/
theorem python_parse_laxity :
    pyIntHex " 1 " = some 1 ∧
    pyIntHex "+1" = some 1 ∧
    pyIntHex "1_0" = some 16 ∧
    pyIntHex "-1" = some (-1) ∧
    pyIntHex "100000000" = some 4294967296 ∧
    (∀ n : Nat, pyIntHex (natToHexUpper n) = some (n : Int)) ∧
    render_read (-1) = "read 0x-1\r\n" ∧
    isReadWire "read 0x-1\r\n" = false ∧
    (∀ a : Nat, a < 2 ^ 32 → isReadWire (render_read (a : Int)) = true) := by
  exact ⟨by decide, by decide, by decide, by decide, by decide,
    pyIntHex_natToHexUpper, by decide, by decide,
    fun a _ => isReadWire_render a⟩

/-- C10 witness: the wire-format check evaluated at address 5. -/
theorem python_parse_laxity_witness :
    isReadWire (render_read ((5 : Nat) : Int)) = true :=
  python_parse_laxity.2.2.2.2.2.2.2.2 5 (by decide)

end Uart
